import Mathlib

/-
Verification of the Milvus MCP (tool-governance) module:
internal/distributed/proxy/httpserver/mcp/{server,types,tools_catalog,constants,descriptions}.go

The Go code is shallowly embedded: JSON values become an inductive type,
the global privilege cache becomes an explicitly threaded association list,
the external proxy component and the role/privilege authority become
function-valued parameters, and each handler returns its response together
with the protocol-version header it wrote (if any), the updated cache, and
the list of tools whose Execute callback ran.
-/

namespace Mcp

/-- Loosely typed JSON-like value, the embedding of Go's `interface{}` as
decoded from JSON (strings, float64 numbers restricted here to the integral
values the module manipulates, booleans, arrays, objects, null). -/
inductive JValue where
  | str (s : String)
  | num (n : Int)
  | bool (b : Bool)
  | arr (xs : List JValue)
  | obj (fields : List (String × JValue))
  | null

/-- Association-list lookup, the embedding of Go map indexing on
`map[string]interface{}` (first binding wins; Go maps have unique keys). -/
def lookupArg : List (String × JValue) → String → Option JValue
  | [], _ => none
  | (k, v) :: rest, key => if key = k then some v else lookupArg rest key

/-- ToolArgs from types.go: structured arguments for tool execution. -/
abbrev ToolArgs := List (String × JValue)

/-- ToolArgs.GetString from types.go: string value when present, non-empty
and actually a string; the default otherwise. -/
def getStringArg (args : ToolArgs) (key defaultValue : String) : String :=
  match lookupArg args key with
  | some (.str v) => if v = "" then defaultValue else v
  | _ => defaultValue

/-- ToolArgs.GetInt from types.go: numeric value when present, the default
otherwise (the Go switch accepts float64/int/int64; both are `.num` here). -/
def getIntArg (args : ToolArgs) (key : String) (defaultValue : Int) : Int :=
  match lookupArg args key with
  | some (.num n) => n
  | _ => defaultValue

/-- ToolArgs.Require from types.go: first missing key produces the error. -/
def requireArgs (args : ToolArgs) : List String → Except String Unit
  | [] => .ok ()
  | key :: keys =>
    match lookupArg args key with
    | some _ => requireArgs args keys
    | none => .error ("required parameter '" ++ key ++ "' is missing")

/-- Go type assertion `params[key].(string)`: `some v` exactly when the
entry is present and is a string. -/
def paramString (params : List (String × JValue)) (key : String) : Option String :=
  match lookupArg params key with
  | some (.str s) => some s
  | _ => none

-- Constants from constants.go and types.go.

def McpProtocolVersion : String := "2025-06-18"

def MCPHeaderProtocolVersion : String := "MCP-Protocol-Version"

def ParamProtocolVersion : String := "protocolVersion"

def ParamDatabaseKey : String := "database"

def ParamCollectionNameKey : String := "collection_name"

def ParamDimensionKey : String := "dimension"

def ParamMetricTypeKey : String := "metric_type"

def FieldPrimaryIDName : String := "id"

def FieldVectorName : String := "vector"

def TypeParamDimKey : String := "dim"

def DefaultCollectionDescription : String := "Created by MCP"

def DefaultIndexName : String := "vector_index"

def DefaultIndexType : String := "IVF_FLAT"

def DefaultMetricType : String := "L2"

def IndexParamIndexTypeKey : String := "index_type"

def IndexParamMetricTypeKey : String := "metric_type"

def IndexParamParamsKey : String := "params"

def ObjectTypeDatabase : String := "Database"

def ErrorCodeParseError : Int := -32700

def ErrorCodeMethodNotFound : Int := -32601

def ErrorCodeInvalidParams : Int := -32602

/-- Modelled from the spec: the well-known "public" role appended to every
principal's role set (util.RolePublic; pkg/v2/util is not under src/). -/
def RolePublic : String := "public"

/-- Modelled from the spec: the default database name substituted for a
wildcard database object (util.DefaultDBName; pkg/v2/util is not under src/). -/
def DefaultDBName : String := "default"

/-- Modelled from the spec: funcutil.PolicyForResource (not under src/)
builds the resource identifier of the privilege-cache key from the database
name, object type and object name; the claims only need it to be a fixed
encoding used consistently on both sides. -/
def PolicyForResource (dbName objectType objectName : String) : String :=
  objectType ++ "-" ++ dbName ++ "." ++ objectName

/-- PrivilegeRequirement from types.go. -/
structure PrivilegeRequirement where
  objectType : String
  objectPrivilege : String
  objectNameField : String
deriving DecidableEq

/-- Key of the privilege cache: (role, resource, privilege), the arguments
of proxy.GetPrivilegeCache / SetPrivilegeCache. -/
structure CacheKey where
  roleName : String
  object : String
  privilege : String
deriving DecidableEq

/-- The shared privilege cache, modelled as an association list threaded
through the handlers; `some b` is a cached entry with verdict `b`, `none`
a cache miss.  (The cache version returned by GetPrivilegeCache and passed
back to SetPrivilegeCache is an opaque token the module never inspects, so
it is not modelled.) -/
abbrev Cache := List (CacheKey × Bool)

/-- GetPrivilegeCache: `some b` means (cached = true, isPermit = b);
`none` means a cache miss. -/
def lookupCache : Cache → CacheKey → Option Bool
  | [], _ => none
  | (k, b) :: rest, key => if key = k then some b else lookupCache rest key

/-- SetPrivilegeCache with isPermit = false: the negative placeholder
written on a cache miss. -/
def setCacheFalse (c : Cache) (k : CacheKey) : Cache := (k, false) :: c

/-- The inner role loop of checkToolPermission (server.go): scan the role
set for an affirmative cached entry, writing a negative placeholder on
every miss; an affirmative hit short-circuits. -/
def scanRoles (object privilege : String) : List String → Cache → Bool × Cache
  | [], c => (false, c)
  | r :: rs, c =>
    match lookupCache c ⟨r, object, privilege⟩ with
    | some true => (true, c)
    | some false => scanRoles object privilege rs c
    | none => scanRoles object privilege rs (setCacheFalse c ⟨r, object, privilege⟩)

/-- The object-name resolution of checkToolPermission: read the named
argument field defaulting to "*"; a wildcard database object becomes the
caller's database. -/
def objectNameFor (args : ToolArgs) (dbName : String) (p : PrivilegeRequirement) : String :=
  let objectName := getStringArg args p.objectNameField "*"
  if p.objectType = ObjectTypeDatabase ∧ objectName = "*" then dbName else objectName

/-- The database name checkToolPermission resolves once before its loop. -/
def dbNameOf (args : ToolArgs) : String := getStringArg args ParamDatabaseKey DefaultDBName

/-- The error message of checkToolPermission when no role satisfies a
requirement. -/
def permissionDeniedMsg (privilege objectType objectName : String) : String :=
  "permission denied: " ++ privilege ++ " privilege required on " ++ objectType ++ ":" ++ objectName

/-- The requirement loop of checkToolPermission: each requirement must be
satisfied by some role; the first unsatisfied requirement aborts the check. -/
def checkRequirements (args : ToolArgs) (dbName : String) (roleNames : List String) :
    List PrivilegeRequirement → Cache → Except String Unit × Cache
  | [], c => (.ok (), c)
  | p :: ps, c =>
    let objectName := objectNameFor args dbName p
    let object := PolicyForResource dbName p.objectType objectName
    match scanRoles object p.objectPrivilege roleNames c with
    | (true, c₂) => checkRequirements args dbName roleNames ps c₂
    | (false, c₂) => (.error (permissionDeniedMsg p.objectPrivilege p.objectType objectName), c₂)

/-- ToolSchema parameter from types.go (the float64 bounds of the source
only ever hold integral values in this module). -/
inductive SchemaParam where
  | mk (type description : String) (default : Option JValue) (enum : List JValue)
      (minimum maximum : Option Int) (minLength maxLength : Option Int)
      (pattern format : String) (items : Option SchemaParam)

/-- ToolSchema from types.go. -/
structure ToolSchema where
  type : String
  properties : List (String × SchemaParam)
  required : List String

/-- McpContent from types.go. -/
structure McpContent where
  type : String
  text : String

/-- ToolResult / McpToolResult from types.go (structurally identical). -/
structure ToolResult where
  content : List McpContent
  isError : Bool
  structuredContent : Option JValue

/-- Tool from types.go; the Execute callback is embedded as a pure function
from arguments to a result-or-error. -/
structure Tool where
  name : String
  title : String
  description : String
  execute : ToolArgs → Except String ToolResult
  inputSchema : Option ToolSchema
  outputSchema : Option ToolSchema
  requiredPrivileges : List PrivilegeRequirement

/-- The authorization environment: the global switch
(Params.CommonCfg.AuthorizationEnabled) and the external role authority
(proxy.GetRole). -/
structure AuthEnv where
  authorizationEnabled : Bool
  getRole : String → Except String (List String)

/-- checkToolPermission from server.go, with the global cache threaded
explicitly. -/
def checkToolPermission (env : AuthEnv) (cache : Cache) (username : String)
    (tool : Tool) (args : ToolArgs) : Except String Unit × Cache :=
  if !env.authorizationEnabled then (.ok (), cache)
  else if tool.requiredPrivileges.isEmpty then (.ok (), cache)
  else
    match env.getRole username with
    | .error e => (.error e, cache)
    | .ok rs =>
      let roleNames := rs ++ [RolePublic]
      let dbName := dbNameOf args
      checkRequirements args dbName roleNames tool.requiredPrivileges cache

/-- McpToolDescription from types.go: what tools/list exposes of a tool. -/
structure McpToolDescription where
  name : String
  title : String
  description : String
  inputSchema : Option ToolSchema
  outputSchema : Option ToolSchema

/-- ToolsCatalog from tools_catalog.go: the registry, an association list
keyed by tool name (registration inserts by Name). -/
structure ToolsCatalog where
  tools : List (String × Tool)

/-- ToolsCatalog.Get. -/
def catalogGet (catalog : ToolsCatalog) (name : String) : Option Tool :=
  match catalog.tools.find? (fun e => e.1 = name) with
  | some (_, tool) => some tool
  | none => none

/-- ToolsCatalog.List: every registered tool as a description. -/
def catalogList (catalog : ToolsCatalog) : List McpToolDescription :=
  catalog.tools.map (fun e =>
    { name := e.2.name, title := e.2.title, description := e.2.description,
      inputSchema := e.2.inputSchema, outputSchema := e.2.outputSchema })

/-- Size of the registry (len(tc.tools) in Go). -/
def catalogSize (catalog : ToolsCatalog) : Nat := catalog.tools.length

/-- The recursion of filterToolsByPermission over the listed descriptions,
threading the shared privilege cache through the successive
checkToolPermission calls. -/
def filterToolsGo (env : AuthEnv) (catalog : ToolsCatalog) (username : String) :
    List McpToolDescription → Cache → List McpToolDescription × Cache
  | [], c => ([], c)
  | d :: ds, c =>
    match catalogGet catalog d.name with
    | none => filterToolsGo env catalog username ds c
    | some tool =>
      let args : ToolArgs := [(ParamDatabaseKey, .str DefaultDBName)]
      match checkToolPermission env c username tool args with
      | (.ok _, c₂) =>
        let rest := filterToolsGo env catalog username ds c₂
        (d :: rest.1, rest.2)
      | (.error _, c₂) => filterToolsGo env catalog username ds c₂

/-- filterToolsByPermission from server.go: with authorization disabled the
listing is returned unchanged; otherwise each tool is kept exactly when the
authorize routine succeeds on a synthetic argument set holding only the
default database. -/
def filterToolsByPermission (env : AuthEnv) (catalog : ToolsCatalog) (username : String)
    (tools : List McpToolDescription) (cache : Cache) : List McpToolDescription × Cache :=
  if !env.authorizationEnabled then (tools, cache)
  else filterToolsGo env catalog username tools cache

/-- McpError from types.go. -/
structure McpError where
  code : Int
  message : String
  data : Option JValue

/-- Capability records from types.go (the empty LoggingCapability carries
no data and is omitted). -/
structure ToolsCapability where
  listChanged : Bool

structure ResourcesCapability where
  subscribe : Bool
  listChanged : Bool

structure PromptsCapability where
  listChanged : Bool

structure ExperimentalCapability where
  structuredOutput : Bool

structure McpCapabilities where
  tools : ToolsCapability
  resources : ResourcesCapability
  prompts : PromptsCapability
  experimental : ExperimentalCapability

/-- McpServerInfo from types.go. -/
structure McpServerInfo where
  name : String
  version : String
  title : String

/-- McpInitializeResult from types.go. -/
structure McpInitializeResult where
  protocolVersion : String
  capabilities : McpCapabilities
  serverInfo : McpServerInfo

/-- McpToolsListResult from types.go (nextCursor is never set by the
server and is omitted). -/
structure McpToolsListResult where
  tools : List McpToolDescription

/-- The result payload of a response, as a tagged union over the shapes the
handlers actually produce (the open `interface{}` Result field of Go). -/
inductive RpcResult where
  | initResult (r : McpInitializeResult)
  | toolsList (r : McpToolsListResult)
  | toolResult (r : ToolResult)
  | ping (status timestamp protocolVersion serverVersion : String) (toolsCount : Nat)
  | ack (acknowledged : Bool)
  | promptsList (prompts : List JValue)
  | resourcesList (resources : List JValue)
  | resourceTemplatesList (resourceTemplates : List JValue)

/-- McpRequest from types.go (the ID is an arbitrary JSON scalar). -/
structure McpRequest where
  jsonrpc : String
  id : JValue
  method : String
  params : List (String × JValue)

/-- McpResponse from types.go: result and error are each optional and the
handlers set exactly one of them. -/
structure McpResponse where
  jsonrpc : String
  id : JValue
  result : Option RpcResult
  error : Option McpError

/-- Transport-level inputs the handlers read from the gin context: the
MCP-Protocol-Version request header ("" when absent) and the username set
by the auth middleware ("" when unset). -/
structure HttpRequest where
  headerProtocolVersion : String
  username : String

/-- Observable outcome of handling one request: the JSON response, the
MCP-Protocol-Version header written on the response (none if the handler
returned before writing it), the updated privilege cache, and the names of
the tools whose Execute callback ran. -/
structure ServerOutput where
  response : McpResponse
  header : Option String
  cache : Cache
  executed : List String

/-- returnSuccess from server.go. -/
def successResponse (req : McpRequest) (result : RpcResult) : McpResponse :=
  { jsonrpc := "2.0", id := req.id, result := some result, error := none }

/-- returnError from server.go. -/
def errorResponse (req : McpRequest) (code : Int) (message : String) (data : Option JValue) : McpResponse :=
  { jsonrpc := "2.0", id := req.id, result := none, error := some { code := code, message := message, data := data } }

/-- getProtocolVersion from server.go: the request parameter is consulted
first but only the literal "2025-03-26" is honored there; then the header,
again only for "2025-03-26"; otherwise the latest version. -/
def getProtocolVersion (http : HttpRequest) (req : McpRequest) : String :=
  if paramString req.params ParamProtocolVersion = some "2025-03-26" then "2025-03-26"
  else if http.headerProtocolVersion = "2025-03-26" then "2025-03-26"
  else McpProtocolVersion

/-- handleInitialize from server.go: an explicit protocol version outside
the two supported literals is rejected with invalid-params before the
result is built; on success the negotiated version is also written to the
response header. -/
def handleInitialize (http : HttpRequest) (req : McpRequest) : McpResponse × Option String :=
  let returnVersion := getProtocolVersion http req
  let result : McpInitializeResult :=
    { protocolVersion := returnVersion,
      capabilities :=
        { tools := { listChanged := false },
          resources := { subscribe := false, listChanged := false },
          prompts := { listChanged := false },
          experimental := { structuredOutput := true } },
      serverInfo :=
        { name := "milvus-mcp-server", version := returnVersion,
          title := "Milvus Vector Database MCP Server" } }
  match paramString req.params ParamProtocolVersion with
  | some v =>
    if v ≠ "2025-03-26" ∧ v ≠ "2025-06-18" then
      (errorResponse req ErrorCodeInvalidParams "Unsupported protocol version"
        (some (.obj [("supported", .str "2025-06-18, 2025-03-26")])), none)
    else (successResponse req (.initResult result), some returnVersion)
  | none => (successResponse req (.initResult result), some returnVersion)

/-- The username resolution shared by tools/list and tools/call: the
anonymous identity when the middleware attached none. -/
def effectiveUser (http : HttpRequest) : String :=
  if http.username = "" then "anonymous" else http.username

/-- handleToolsList from server.go. -/
def handleToolsList (env : AuthEnv) (cache : Cache) (catalog : ToolsCatalog)
    (http : HttpRequest) (req : McpRequest) : ServerOutput :=
  let username := effectiveUser http
  let tools := catalogList catalog
  let filtered := filterToolsByPermission env catalog username tools cache
  let protocolVersion := getProtocolVersion http req
  { response := successResponse req (.toolsList { tools := filtered.1 }),
    header := some protocolVersion, cache := filtered.2, executed := [] }

/-- The arguments extraction of handleToolsCall: params["arguments"] when
it is an object, the empty map otherwise. -/
def toolArgsOf (req : McpRequest) : ToolArgs :=
  match lookupArg req.params "arguments" with
  | some (.obj kvs) => kvs
  | _ => []

/-- handleToolsCall from server.go.  Note that the permission-denied and
execution-error paths return before the protocol-version header is written. -/
def handleToolsCall (env : AuthEnv) (cache : Cache) (catalog : ToolsCatalog)
    (http : HttpRequest) (req : McpRequest) : ServerOutput :=
  match paramString req.params "name" with
  | none =>
    { response := errorResponse req ErrorCodeInvalidParams "Tool name is required" none,
      header := none, cache := cache, executed := [] }
  | some toolName =>
    if toolName = "" then
      { response := errorResponse req ErrorCodeInvalidParams "Tool name is required" none,
        header := none, cache := cache, executed := [] }
    else
      let toolArgs := toolArgsOf req
      match catalogGet catalog toolName with
      | none =>
        { response := errorResponse req ErrorCodeMethodNotFound ("Tool not found: " ++ toolName) none,
          header := none, cache := cache, executed := [] }
      | some tool =>
        let username := effectiveUser http
        match checkToolPermission env cache username tool toolArgs with
        | (.error e, cache₂) =>
          { response := successResponse req (.toolResult
              { content := [{ type := "text", text := "Permission denied: " ++ e }],
                isError := true, structuredContent := none }),
            header := none, cache := cache₂, executed := [] }
        | (.ok _, cache₂) =>
          match tool.execute toolArgs with
          | .error e =>
            { response := successResponse req (.toolResult
                { content := [{ type := "text", text := "Error: " ++ e }],
                  isError := true, structuredContent := none }),
              header := none, cache := cache₂, executed := [toolName] }
          | .ok result =>
            { response := successResponse req (.toolResult
                { content := result.content, isError := result.isError,
                  structuredContent := result.structuredContent }),
              header := some (getProtocolVersion http req), cache := cache₂,
              executed := [toolName] }

/-- handlePing from server.go; the fresh timestamp is a parameter. -/
def handlePing (catalog : ToolsCatalog) (http : HttpRequest) (req : McpRequest)
    (timestamp : String) : McpResponse × Option String :=
  let protocolVersion := getProtocolVersion http req
  (successResponse req (.ping "healthy" timestamp protocolVersion protocolVersion (catalogSize catalog)),
   some protocolVersion)

/-- handleNotificationsInitialized from server.go. -/
def handleNotificationsInitialized (http : HttpRequest) (req : McpRequest) : McpResponse × Option String :=
  let protocolVersion := getProtocolVersion http req
  (successResponse req (.ack true), some protocolVersion)

/-- handlePromptsList from server.go. -/
def handlePromptsList (http : HttpRequest) (req : McpRequest) : McpResponse × Option String :=
  let protocolVersion := getProtocolVersion http req
  (successResponse req (.promptsList []), some protocolVersion)

/-- handleResourcesList from server.go. -/
def handleResourcesList (http : HttpRequest) (req : McpRequest) : McpResponse × Option String :=
  let protocolVersion := getProtocolVersion http req
  (successResponse req (.resourcesList []), some protocolVersion)

/-- handleResourceTemplatesList from server.go. -/
def handleResourceTemplatesList (http : HttpRequest) (req : McpRequest) : McpResponse × Option String :=
  let protocolVersion := getProtocolVersion http req
  (successResponse req (.resourceTemplatesList []), some protocolVersion)

/-- Wrap a cache-free handler outcome into a ServerOutput. -/
def plainOutput (cache : Cache) (out : McpResponse × Option String) : ServerOutput :=
  { response := out.1, header := out.2, cache := cache, executed := [] }

/-- handleMcpRequest from server.go: decode (an undecodable body yields a
parse error with null identifier), then route by method name. -/
def handleMcpRequest (env : AuthEnv) (cache : Cache) (catalog : ToolsCatalog)
    (http : HttpRequest) (decoded : Except String McpRequest) (timestamp : String) : ServerOutput :=
  match decoded with
  | .error e =>
    { response := { jsonrpc := "2.0", id := .null, result := none,
                    error := some { code := ErrorCodeParseError, message := "Parse error", data := some (.str e) } },
      header := none, cache := cache, executed := [] }
  | .ok req =>
    if req.method = "initialize" then plainOutput cache (handleInitialize http req)
    else if req.method = "tools/list" then handleToolsList env cache catalog http req
    else if req.method = "tools/call" then handleToolsCall env cache catalog http req
    else if req.method = "prompts/list" then plainOutput cache (handlePromptsList http req)
    else if req.method = "resources/list" then plainOutput cache (handleResourcesList http req)
    else if req.method = "resources/templates/list" then plainOutput cache (handleResourceTemplatesList http req)
    else if req.method = "ping" then plainOutput cache (handlePing catalog http req timestamp)
    else if req.method = "notifications/initialized" then plainOutput cache (handleNotificationsInitialized http req)
    else
      { response := errorResponse req ErrorCodeMethodNotFound ("Method not found: " ++ req.method) none,
        header := none, cache := cache, executed := [] }

/-- FieldSchema from the schemapb collection schema built by
createCollection (the data type is kept as its name string). -/
structure FieldSchema where
  fieldID : Int
  name : String
  isPrimaryKey : Bool
  dataType : String
  autoID : Bool
  typeParams : List (String × String)

/-- CollectionSchema from schemapb.  The protobuf serialization the Go code
sends (proto.Marshal) is modelled as the schema value itself. -/
structure CollectionSchema where
  name : String
  description : String
  fields : List FieldSchema

/-- milvuspb.CreateCollectionRequest as populated by createCollection. -/
structure CreateCollectionRequest where
  dbName : String
  collectionName : String
  schema : CollectionSchema

/-- milvuspb.CreateIndexRequest as populated by createCollection. -/
structure CreateIndexRequest where
  dbName : String
  collectionName : String
  fieldName : String
  indexName : String
  extraParams : List (String × String)

/-- commonpb.Status: a code with a reason; 0 is the designated OK value. -/
structure CommonStatus where
  code : Int
  reason : String

/-- A delegated data-plane call issued by a tool, recorded so that the
theorems can speak about which external operations ran. -/
inductive ProxyCall where
  | createCollection (r : CreateCollectionRequest)
  | createIndex (r : CreateIndexRequest)

/-- The delegated data-plane component (types.ProxyComponent) at the
interface boundary the collection-create tool uses: each RPC either fails
at transport level (.error) or returns a status. -/
structure ProxyModel where
  createCollectionResp : CreateCollectionRequest → Except String CommonStatus
  createIndexResp : CreateIndexRequest → Except String CommonStatus

/-- The fixed two-field schema (auto-ID int64 primary key plus a float
vector of the requested dimension) built by createCollection. -/
def collectionSchemaFor (collectionName : String) (dimension : Int) : CollectionSchema :=
  { name := collectionName,
    description := DefaultCollectionDescription,
    fields :=
      [ { fieldID := 100, name := FieldPrimaryIDName, isPrimaryKey := true,
          dataType := "Int64", autoID := true, typeParams := [] },
        { fieldID := 101, name := FieldVectorName, isPrimaryKey := false,
          dataType := "FloatVector", autoID := false,
          typeParams := [(TypeParamDimKey, toString dimension)] } ] }

/-- The create-collection RPC request createCollection issues. -/
def createCollectionRequestFor (dbName collectionName : String) (dimension : Int) : CreateCollectionRequest :=
  { dbName := dbName, collectionName := collectionName,
    schema := collectionSchemaFor collectionName dimension }

/-- The index-creation RPC request createCollection issues after a
successful create. -/
def createIndexRequestFor (dbName collectionName metricType : String) : CreateIndexRequest :=
  { dbName := dbName, collectionName := collectionName,
    fieldName := FieldVectorName, indexName := DefaultIndexName,
    extraParams :=
      [ (IndexParamIndexTypeKey, DefaultIndexType),
        (IndexParamMetricTypeKey, metricType),
        (IndexParamParamsKey, "\x7b\"nlist\": 128\x7d") ] }

/-- The structured payload of a successful createCollection. -/
def createCollectionData (collectionName dbName : String) (dimension : Int) (metricType : String) : JValue :=
  .obj
    [ ("collection_name", .str collectionName),
      ("database", .str dbName),
      ("dimension", .num dimension),
      ("metric_type", .str metricType),
      ("status", .str "created") ]

/-- createCollection from tools_catalog.go, returning the tool outcome
together with the delegated calls it issued.  The response (and error) of
the trailing CreateIndex call is bound and then never consulted, exactly as
in the source. -/
def createCollection (px : ProxyModel) (args : ToolArgs) : Except String ToolResult × List ProxyCall :=
  match requireArgs args [ParamCollectionNameKey, ParamDimensionKey] with
  | .error e => (.error e, [])
  | .ok _ =>
    let dbName := getStringArg args ParamDatabaseKey DefaultDBName
    let collectionName := getStringArg args ParamCollectionNameKey ""
    let dimension := getIntArg args ParamDimensionKey 0
    let metricType := getStringArg args ParamMetricTypeKey DefaultMetricType
    if dimension ≤ 0 then
      (.error ("dimension must be positive, got " ++ toString dimension), [])
    else
      let req := createCollectionRequestFor dbName collectionName dimension
      match px.createCollectionResp req with
      | .error e => (.error e, [.createCollection req])
      | .ok resp =>
        if resp.code ≠ 0 then (.error resp.reason, [.createCollection req])
        else
          let indexReq := createIndexRequestFor dbName collectionName metricType
          let _ := px.createIndexResp indexReq
          let data := createCollectionData collectionName dbName dimension metricType
          let message := "Collection '" ++ collectionName ++ "' created successfully with dimension "
            ++ toString dimension
          (.ok { content := [{ type := "text", text := message }], isError := false,
                 structuredContent := some data },
           [.createCollection req, .createIndex indexReq])

/-- The privilege-cache key a requirement generates for one role. -/
def requirementKey (args : ToolArgs) (dbName : String) (p : PrivilegeRequirement) (r : String) : CacheKey :=
  ⟨r, PolicyForResource dbName p.objectType (objectNameFor args dbName p), p.objectPrivilege⟩

/-- A requirement is satisfied by a cache and role set when some role has
an affirmative cached entry for the requirement's (role, resource,
privilege) triple. -/
def reqSatisfied (cache : Cache) (args : ToolArgs) (dbName : String)
    (roleNames : List String) (p : PrivilegeRequirement) : Prop :=
  ∃ r ∈ roleNames, lookupCache cache (requirementKey args dbName p r) = some true

instance reqSatisfiedDecidable (cache : Cache) (args : ToolArgs) (dbName : String)
    (roleNames : List String) (p : PrivilegeRequirement) :
    Decidable (reqSatisfied cache args dbName roleNames p) :=
  List.decidableBEx _ roleNames

/-- The first requirement of a list not satisfied by the given cache. -/
def firstUnsatisfied (cache : Cache) (args : ToolArgs) (dbName : String)
    (roleNames : List String) (ps : List PrivilegeRequirement) : Option PrivilegeRequirement :=
  ps.find? (fun q => decide (¬ reqSatisfied cache args dbName roleNames q))

theorem lookupCache_setFalse (c : Cache) (k key : CacheKey) :
    lookupCache (setCacheFalse c k) key = if key = k then some false else lookupCache c key := rfl

theorem lookup_setFalse_true_iff (c : Cache) (k key : CacheKey) (h : lookupCache c k = none) :
    lookupCache (setCacheFalse c k) key = some true ↔ lookupCache c key = some true := by
  rw [lookupCache_setFalse]
  by_cases hk : key = k
  · subst hk
    simp [h]
  · simp [hk]

theorem scanRoles_truth (object privilege : String) (roles : List String) :
    ∀ (c : Cache) (key : CacheKey),
      lookupCache (scanRoles object privilege roles c).2 key = some true ↔
        lookupCache c key = some true := by
  induction roles with
  | nil => intro c key; exact Iff.rfl
  | cons r rs ih =>
    intro c key
    cases h : lookupCache c ⟨r, object, privilege⟩ with
    | none =>
      simp only [scanRoles, h]
      rw [ih]
      exact lookup_setFalse_true_iff c _ key h
    | some b =>
      cases b with
      | true => simp only [scanRoles, h]
      | false =>
        simp only [scanRoles, h]
        exact ih c key

theorem scanRoles_preserves (object privilege : String) (roles : List String) :
    ∀ (c : Cache) (key : CacheKey) (b : Bool), lookupCache c key = some b →
      lookupCache (scanRoles object privilege roles c).2 key = some b := by
  induction roles with
  | nil => intro c key b h; exact h
  | cons r rs ih =>
    intro c key b h
    cases hr : lookupCache c ⟨r, object, privilege⟩ with
    | none =>
      simp only [scanRoles, hr]
      apply ih
      rw [lookupCache_setFalse]
      have hk : key ≠ ⟨r, object, privilege⟩ := by
        intro he
        rw [he, hr] at h
        exact Option.noConfusion h
      simp [hk, h]
    | some vb =>
      cases vb with
      | true => simp only [scanRoles, hr]; exact h
      | false => simp only [scanRoles, hr]; exact ih c key b h

theorem scanRoles_delta (object privilege : String) (roles : List String) :
    ∀ (c : Cache) (key : CacheKey),
      lookupCache (scanRoles object privilege roles c).2 key ≠ lookupCache c key →
        lookupCache c key = none ∧
          lookupCache (scanRoles object privilege roles c).2 key = some false := by
  induction roles with
  | nil => intro c key h; exact absurd rfl h
  | cons r rs ih =>
    intro c key h
    cases hr : lookupCache c ⟨r, object, privilege⟩ with
    | none =>
      simp only [scanRoles, hr] at h ⊢
      by_cases hk : key = (⟨r, object, privilege⟩ : CacheKey)
      · subst hk
        refine ⟨hr, ?_⟩
        apply scanRoles_preserves
        rw [lookupCache_setFalse]
        simp
      · have hset : lookupCache (setCacheFalse c ⟨r, object, privilege⟩) key = lookupCache c key := by
          rw [lookupCache_setFalse]; simp [hk]
        by_cases hd : lookupCache (scanRoles object privilege rs (setCacheFalse c ⟨r, object, privilege⟩)).2 key
            = lookupCache (setCacheFalse c ⟨r, object, privilege⟩) key
        · rw [hd, hset] at h
          exact absurd rfl h
        · have := ih (setCacheFalse c ⟨r, object, privilege⟩) key hd
          exact ⟨by rw [← hset]; exact this.1, this.2⟩
    | some vb =>
      cases vb with
      | true => simp only [scanRoles, hr] at h; exact absurd rfl h
      | false =>
        simp only [scanRoles, hr] at h ⊢
        exact ih c key h

theorem scanRoles_verdict (object privilege : String) (roles : List String) :
    ∀ (c : Cache),
      (scanRoles object privilege roles c).1 = true ↔
        ∃ r ∈ roles, lookupCache c ⟨r, object, privilege⟩ = some true := by
  induction roles with
  | nil => intro c; simp [scanRoles]
  | cons r rs ih =>
    intro c
    cases hr : lookupCache c ⟨r, object, privilege⟩ with
    | none =>
      simp only [scanRoles, hr]
      rw [ih]
      constructor
      · rintro ⟨r', hr', hl⟩
        exact ⟨r', List.mem_cons_of_mem r hr',
          (lookup_setFalse_true_iff c _ _ hr).mp hl⟩
      · rintro ⟨r', hr', hl⟩
        rcases List.mem_cons.mp hr' with he | hm
        · subst he; rw [hr] at hl; exact Option.noConfusion hl
        · exact ⟨r', hm, (lookup_setFalse_true_iff c _ _ hr).mpr hl⟩
    | some vb =>
      cases vb with
      | true =>
        simp only [scanRoles, hr]
        constructor
        · intro _; exact ⟨r, List.mem_cons_self r rs, hr⟩
        · intro _; trivial
      | false =>
        simp only [scanRoles, hr]
        rw [ih]
        constructor
        · rintro ⟨r', hr', hl⟩
          exact ⟨r', List.mem_cons_of_mem r hr', hl⟩
        · rintro ⟨r', hr', hl⟩
          rcases List.mem_cons.mp hr' with he | hm
          · subst he; rw [hr] at hl; exact absurd hl (by decide)
          · exact ⟨r', hm, hl⟩

theorem scanRoles_false_covers (object privilege : String) (roles : List String) :
    ∀ (c : Cache), (scanRoles object privilege roles c).1 = false →
      ∀ r ∈ roles, lookupCache (scanRoles object privilege roles c).2 ⟨r, object, privilege⟩ = some false := by
  induction roles with
  | nil => intro c _ r hr; exact absurd hr (List.not_mem_nil r)
  | cons r rs ih =>
    intro c hfalse r' hr'
    cases hr : lookupCache c ⟨r, object, privilege⟩ with
    | none =>
      simp only [scanRoles, hr] at hfalse ⊢
      rcases List.mem_cons.mp hr' with he | hm
      · subst he
        apply scanRoles_preserves
        rw [lookupCache_setFalse]
        simp
      · exact ih _ hfalse r' hm
    | some vb =>
      cases vb with
      | true =>
        simp only [scanRoles, hr] at hfalse
        exact Bool.noConfusion hfalse
      | false =>
        simp only [scanRoles, hr] at hfalse ⊢
        rcases List.mem_cons.mp hr' with he | hm
        · subst he
          exact scanRoles_preserves object privilege rs c _ false hr
        · exact ih c hfalse r' hm

theorem reqSatisfied_congr (c₁ c₂ : Cache) (args : ToolArgs) (dbName : String)
    (roleNames : List String) (p : PrivilegeRequirement)
    (h : ∀ key, lookupCache c₁ key = some true ↔ lookupCache c₂ key = some true) :
    reqSatisfied c₁ args dbName roleNames p ↔ reqSatisfied c₂ args dbName roleNames p := by
  unfold reqSatisfied
  constructor
  · rintro ⟨r, hr, hl⟩; exact ⟨r, hr, (h _).mp hl⟩
  · rintro ⟨r, hr, hl⟩; exact ⟨r, hr, (h _).mpr hl⟩

theorem findCongr {α : Type} (p q : α → Bool) (l : List α) (h : ∀ a ∈ l, p a = q a) :
    l.find? p = l.find? q := by
  induction l with
  | nil => rfl
  | cons a as ih =>
    simp only [List.find?]
    rw [h a (List.mem_cons_self a as)]
    cases q a
    · exact ih (fun b hb => h b (List.mem_cons_of_mem a hb))
    · rfl

theorem checkRequirements_truth (args : ToolArgs) (dbName : String) (roleNames : List String)
    (ps : List PrivilegeRequirement) :
    ∀ (c : Cache) (key : CacheKey),
      lookupCache (checkRequirements args dbName roleNames ps c).2 key = some true ↔
        lookupCache c key = some true := by
  induction ps with
  | nil => intro c key; exact Iff.rfl
  | cons p ps ih =>
    intro c key
    cases hsc : scanRoles (PolicyForResource dbName p.objectType (objectNameFor args dbName p))
        p.objectPrivilege roleNames c with
    | mk b c₂ =>
      have hc₂ : (scanRoles (PolicyForResource dbName p.objectType (objectNameFor args dbName p))
          p.objectPrivilege roleNames c).2 = c₂ := by rw [hsc]
      cases b
      · simp only [checkRequirements, hsc]
        rw [← hc₂]
        exact scanRoles_truth _ _ _ c key
      · simp only [checkRequirements, hsc]
        rw [ih c₂ key, ← hc₂]
        exact scanRoles_truth _ _ _ c key

theorem checkRequirements_preserves (args : ToolArgs) (dbName : String) (roleNames : List String)
    (ps : List PrivilegeRequirement) :
    ∀ (c : Cache) (key : CacheKey) (b : Bool), lookupCache c key = some b →
      lookupCache (checkRequirements args dbName roleNames ps c).2 key = some b := by
  induction ps with
  | nil => intro c key b h; exact h
  | cons p ps ih =>
    intro c key b h
    cases hsc : scanRoles (PolicyForResource dbName p.objectType (objectNameFor args dbName p))
        p.objectPrivilege roleNames c with
    | mk verdict c₂ =>
      have hc₂ : lookupCache c₂ key = some b := by
        rw [← show (scanRoles (PolicyForResource dbName p.objectType (objectNameFor args dbName p))
            p.objectPrivilege roleNames c).2 = c₂ from by rw [hsc]]
        exact scanRoles_preserves _ _ _ c key b h
      cases verdict
      · simp only [checkRequirements, hsc]
        exact hc₂
      · simp only [checkRequirements, hsc]
        exact ih c₂ key b hc₂

theorem checkRequirements_delta (args : ToolArgs) (dbName : String) (roleNames : List String)
    (ps : List PrivilegeRequirement) :
    ∀ (c : Cache) (key : CacheKey),
      lookupCache (checkRequirements args dbName roleNames ps c).2 key ≠ lookupCache c key →
        lookupCache c key = none ∧
          lookupCache (checkRequirements args dbName roleNames ps c).2 key = some false := by
  induction ps with
  | nil => intro c key h; exact absurd rfl h
  | cons p ps ih =>
    intro c key h
    cases hsc : scanRoles (PolicyForResource dbName p.objectType (objectNameFor args dbName p))
        p.objectPrivilege roleNames c with
    | mk verdict c₂ =>
      have hsnd : (scanRoles (PolicyForResource dbName p.objectType (objectNameFor args dbName p))
          p.objectPrivilege roleNames c).2 = c₂ := by rw [hsc]
      cases verdict
      · simp only [checkRequirements, hsc] at h ⊢
        rw [← hsnd] at h ⊢
        exact scanRoles_delta _ _ _ c key h
      · simp only [checkRequirements, hsc] at h ⊢
        by_cases hd : lookupCache c₂ key = lookupCache c key
        · rw [← hd] at h ⊢
          exact ih c₂ key h
        · have hscd := scanRoles_delta (PolicyForResource dbName p.objectType (objectNameFor args dbName p))
            p.objectPrivilege roleNames c key (by rw [hsnd]; exact hd)
          rw [hsnd] at hscd
          exact ⟨hscd.1, checkRequirements_preserves args dbName roleNames ps c₂ key false hscd.2⟩

theorem checkRequirements_verdict (args : ToolArgs) (dbName : String) (roleNames : List String)
    (ps : List PrivilegeRequirement) :
    ∀ (c : Cache),
      (checkRequirements args dbName roleNames ps c).1 = .ok () ↔
        ∀ p ∈ ps, reqSatisfied c args dbName roleNames p := by
  induction ps with
  | nil => intro c; simp [checkRequirements]
  | cons p ps ih =>
    intro c
    cases hsc : scanRoles (PolicyForResource dbName p.objectType (objectNameFor args dbName p))
        p.objectPrivilege roleNames c with
    | mk verdict c₂ =>
      have hsnd : (scanRoles (PolicyForResource dbName p.objectType (objectNameFor args dbName p))
          p.objectPrivilege roleNames c).2 = c₂ := by rw [hsc]
      have hfst : (scanRoles (PolicyForResource dbName p.objectType (objectNameFor args dbName p))
          p.objectPrivilege roleNames c).1 = verdict := by rw [hsc]
      have hverdict := scanRoles_verdict (PolicyForResource dbName p.objectType (objectNameFor args dbName p))
        p.objectPrivilege roleNames c
      rw [hfst] at hverdict
      cases verdict
      · simp only [checkRequirements, hsc]
        constructor
        · intro hok; exact Except.noConfusion hok
        · intro hall
          have hp : reqSatisfied c args dbName roleNames p := hall p (List.mem_cons_self p ps)
          have : (false : Bool) = true := hverdict.mpr (by
            rcases hp with ⟨r, hr, hl⟩
            exact ⟨r, hr, hl⟩)
          exact Bool.noConfusion this
      · simp only [checkRequirements, hsc]
        have hp : reqSatisfied c args dbName roleNames p := by
          rcases hverdict.mp rfl with ⟨r, hr, hl⟩
          exact ⟨r, hr, hl⟩
        have htruth : ∀ key, lookupCache c₂ key = some true ↔ lookupCache c key = some true := by
          intro key
          rw [← hsnd]
          exact scanRoles_truth _ _ _ c key
        rw [ih c₂]
        constructor
        · intro hall q hq
          rcases List.mem_cons.mp hq with he | hm
          · subst he; exact hp
          · exact (reqSatisfied_congr c₂ c args dbName roleNames q htruth).mp (hall q hm)
        · intro hall q hq
          exact (reqSatisfied_congr c₂ c args dbName roleNames q htruth).mpr
            (hall q (List.mem_cons_of_mem p hq))

theorem checkRequirements_error (args : ToolArgs) (dbName : String) (roleNames : List String)
    (ps : List PrivilegeRequirement) :
    ∀ (c : Cache) (e : String),
      (checkRequirements args dbName roleNames ps c).1 = .error e →
        ∃ p, firstUnsatisfied c args dbName roleNames ps = some p ∧
          e = permissionDeniedMsg p.objectPrivilege p.objectType (objectNameFor args dbName p) ∧
          ∀ r ∈ roleNames,
            lookupCache (checkRequirements args dbName roleNames ps c).2
              (requirementKey args dbName p r) = some false := by
  induction ps with
  | nil => intro c e h; exact Except.noConfusion h
  | cons p ps ih =>
    intro c e h
    cases hsc : scanRoles (PolicyForResource dbName p.objectType (objectNameFor args dbName p))
        p.objectPrivilege roleNames c with
    | mk verdict c₂ =>
      have hsnd : (scanRoles (PolicyForResource dbName p.objectType (objectNameFor args dbName p))
          p.objectPrivilege roleNames c).2 = c₂ := by rw [hsc]
      have hfst : (scanRoles (PolicyForResource dbName p.objectType (objectNameFor args dbName p))
          p.objectPrivilege roleNames c).1 = verdict := by rw [hsc]
      have hverdict := scanRoles_verdict (PolicyForResource dbName p.objectType (objectNameFor args dbName p))
        p.objectPrivilege roleNames c
      rw [hfst] at hverdict
      have htruth : ∀ key, lookupCache c₂ key = some true ↔ lookupCache c key = some true := by
        intro key
        rw [← hsnd]
        exact scanRoles_truth _ _ _ c key
      cases verdict
      · -- the requirement p itself fails: the error names p and every role
        -- of the failing scan ends with a negative cache entry
        have hnotp : ¬ reqSatisfied c args dbName roleNames p := by
          intro hp
          have : (false : Bool) = true := hverdict.mpr (by
            rcases hp with ⟨r, hr, hl⟩
            exact ⟨r, hr, hl⟩)
          exact Bool.noConfusion this
        simp only [checkRequirements, hsc] at h ⊢
        refine ⟨p, ?_, ?_, ?_⟩
        · unfold firstUnsatisfied
          rw [List.find?_cons_of_pos]
          simp [hnotp]
        · exact (Except.error.inj h).symm
        · intro r hr
          rw [← hsnd]
          exact scanRoles_false_covers _ _ roleNames c (by rw [hfst]) r hr
      · -- p is satisfied: recurse, transporting the first-unsatisfied
        -- computation back from the updated cache to the original one
        have hp : reqSatisfied c args dbName roleNames p := by
          rcases hverdict.mp rfl with ⟨r, hr, hl⟩
          exact ⟨r, hr, hl⟩
        simp only [checkRequirements, hsc] at h ⊢
        rcases ih c₂ e h with ⟨p', hfind, hmsg, hcov⟩
        refine ⟨p', ?_, hmsg, hcov⟩
        unfold firstUnsatisfied at hfind ⊢
        rw [List.find?_cons_of_neg]
        · rw [← hfind]
          apply findCongr
          intro q _
          have := reqSatisfied_congr c₂ c args dbName roleNames q htruth
          simp [this]
        · simp [hp]

theorem checkToolPermission_truth (env : AuthEnv) (cache : Cache) (username : String)
    (tool : Tool) (args : ToolArgs) (key : CacheKey) :
    lookupCache (checkToolPermission env cache username tool args).2 key = some true ↔
      lookupCache cache key = some true := by
  unfold checkToolPermission
  by_cases ha : env.authorizationEnabled
  · by_cases he : tool.requiredPrivileges.isEmpty
    · simp [ha, he]
    · cases hrole : env.getRole username with
      | error e => simp [ha, he, hrole]
      | ok rs =>
        simp only [ha, he, hrole, Bool.not_true, Bool.false_eq_true, if_false,
          Bool.not_eq_true]
        exact checkRequirements_truth args (dbNameOf args) (rs ++ [RolePublic])
          tool.requiredPrivileges cache key
  · simp [ha]

theorem checkToolPermission_delta (env : AuthEnv) (cache : Cache) (username : String)
    (tool : Tool) (args : ToolArgs) (key : CacheKey) :
    lookupCache (checkToolPermission env cache username tool args).2 key ≠ lookupCache cache key →
      lookupCache cache key = none ∧
        lookupCache (checkToolPermission env cache username tool args).2 key = some false := by
  unfold checkToolPermission
  by_cases ha : env.authorizationEnabled
  · by_cases he : tool.requiredPrivileges.isEmpty
    · simp [ha, he]
    · cases hrole : env.getRole username with
      | error e => simp [ha, he, hrole]
      | ok rs =>
        simp only [ha, he, hrole, Bool.not_true, Bool.false_eq_true, if_false,
          Bool.not_eq_true]
        exact checkRequirements_delta args (dbNameOf args) (rs ++ [RolePublic])
          tool.requiredPrivileges cache key
  · simp [ha]

theorem checkToolPermission_ok_iff (env : AuthEnv) (cache : Cache) (username : String)
    (tool : Tool) (args : ToolArgs) (rs : List String)
    (hrole : env.getRole username = .ok rs) :
    (checkToolPermission env cache username tool args).1 = .ok () ↔
      (env.authorizationEnabled = false ∨ tool.requiredPrivileges = [] ∨
        ∀ p ∈ tool.requiredPrivileges,
          reqSatisfied cache args (dbNameOf args) (rs ++ [RolePublic]) p) := by
  unfold checkToolPermission
  by_cases ha : env.authorizationEnabled
  · by_cases he : tool.requiredPrivileges.isEmpty
    · simp [ha, he, List.isEmpty_iff.mp he]
    · have hne : tool.requiredPrivileges ≠ [] := fun hnil => he (by simp [hnil])
      simp only [ha, he, hrole, Bool.not_true, Bool.false_eq_true, if_false,
        Bool.not_eq_true]
      rw [checkRequirements_verdict]
      simp [ha, hne]
  · simp [ha]

theorem checkToolPermission_error_shape (env : AuthEnv) (cache : Cache) (username : String)
    (tool : Tool) (args : ToolArgs) (rs : List String) (e : String)
    (hrole : env.getRole username = .ok rs)
    (herr : (checkToolPermission env cache username tool args).1 = .error e) :
    ∃ p, firstUnsatisfied cache args (dbNameOf args) (rs ++ [RolePublic]) tool.requiredPrivileges = some p ∧
      e = permissionDeniedMsg p.objectPrivilege p.objectType (objectNameFor args (dbNameOf args) p) ∧
      ∀ r ∈ rs ++ [RolePublic],
        lookupCache (checkToolPermission env cache username tool args).2
          (requirementKey args (dbNameOf args) p r) = some false := by
  unfold checkToolPermission at herr ⊢
  by_cases ha : env.authorizationEnabled
  · by_cases he : tool.requiredPrivileges.isEmpty
    · simp [ha, he] at herr
    · simp only [ha, he, hrole, Bool.not_true, Bool.false_eq_true, if_false,
        Bool.not_eq_true] at herr ⊢
      exact checkRequirements_error args (dbNameOf args) (rs ++ [RolePublic])
        tool.requiredPrivileges cache e herr
  · simp [ha] at herr

/-- C3 counterexample: with an explicit, supported protocolVersion
parameter of "2025-06-18" and a request header of "2025-03-26", the
selected version is the header's "2025-03-26", not the parameter's value:
the parameter is only honored when it equals "2025-03-26". -/
theorem claim3_counterexample :
    getProtocolVersion { headerProtocolVersion := "2025-03-26", username := "" }
      { jsonrpc := "2.0", id := .num 1, method := "ping",
        params := [(ParamProtocolVersion, .str "2025-06-18")] } = "2025-03-26" ∧
      "2025-03-26" ≠ "2025-06-18" := by
  exact ⟨rfl, by decide⟩

/-- C3 (amended): the version selection only short-circuits on the literal
"2025-03-26": an explicit parameter equal to "2025-03-26" is used first;
otherwise a header equal to "2025-03-26" is used; in every other case —
including an explicit supported parameter of "2025-06-18" — the server
default "2025-06-18" is returned. -/
theorem claim3_getProtocolVersion_priority (http : HttpRequest) (req : McpRequest) :
    (paramString req.params ParamProtocolVersion = some "2025-03-26" →
        getProtocolVersion http req = "2025-03-26") ∧
      (paramString req.params ParamProtocolVersion ≠ some "2025-03-26" →
        http.headerProtocolVersion = "2025-03-26" →
        getProtocolVersion http req = "2025-03-26") ∧
      (paramString req.params ParamProtocolVersion ≠ some "2025-03-26" →
        http.headerProtocolVersion ≠ "2025-03-26" →
        getProtocolVersion http req = McpProtocolVersion) := by
  refine ⟨?_, ?_, ?_⟩
  · intro hp
    unfold getProtocolVersion
    rw [if_pos hp]
  · intro hp hh
    unfold getProtocolVersion
    rw [if_neg hp, if_pos hh]
  · intro hp hh
    unfold getProtocolVersion
    rw [if_neg hp, if_neg hh]

/-- C3 witness: the amended priority evaluated at a concrete request whose
header is "2025-03-26" and whose parameter is absent. -/
theorem claim3_witness :
    paramString ([] : List (String × JValue)) ParamProtocolVersion ≠ some "2025-03-26" ∧
      getProtocolVersion { headerProtocolVersion := "2025-03-26", username := "" }
        { jsonrpc := "2.0", id := .null, method := "ping", params := [] } = "2025-03-26" := by
  constructor
  · intro h; exact Option.noConfusion h
  · exact (claim3_getProtocolVersion_priority
      { headerProtocolVersion := "2025-03-26", username := "" }
      { jsonrpc := "2.0", id := .null, method := "ping", params := [] }).2.1
      (fun h => Option.noConfusion h) rfl

/-- C7: an initialize request carrying an explicit protocolVersion outside
the supported set gets a protocol-level -32602 error, no
capability/serverInfo result, and no protocol-version response header. -/
theorem claim7_unsupported_version_rejected (env : AuthEnv) (cache : Cache)
    (catalog : ToolsCatalog) (http : HttpRequest) (req : McpRequest) (ts v : String)
    (hm : req.method = "initialize")
    (hv : paramString req.params ParamProtocolVersion = some v)
    (h1 : v ≠ "2025-03-26") (h2 : v ≠ "2025-06-18") :
    (handleMcpRequest env cache catalog http (.ok req) ts).response.error =
        some { code := ErrorCodeInvalidParams, message := "Unsupported protocol version",
               data := some (.obj [("supported", .str "2025-06-18, 2025-03-26")]) } ∧
      (handleMcpRequest env cache catalog http (.ok req) ts).response.result = none ∧
      (handleMcpRequest env cache catalog http (.ok req) ts).header = none ∧
      (handleMcpRequest env cache catalog http (.ok req) ts).response.id = req.id := by
  simp only [handleMcpRequest, hm, reduceIte, plainOutput, handleInitialize, hv]
  rw [if_pos ⟨h1, h2⟩]
  simp [errorResponse]

/-- C7 witness: the rejection evaluated at a concrete initialize request
asking for version "1999-01-01". -/
theorem claim7_witness :
    paramString [(ParamProtocolVersion, JValue.str "1999-01-01")] ParamProtocolVersion = some "1999-01-01" ∧
      (handleMcpRequest { authorizationEnabled := false, getRole := fun _ => .ok [] } []
          { tools := [] } { headerProtocolVersion := "", username := "" }
          (.ok { jsonrpc := "2.0", id := .num 5, method := "initialize",
                 params := [(ParamProtocolVersion, .str "1999-01-01")] }) "t").response.result = none := by
  refine ⟨rfl, ?_⟩
  exact (claim7_unsupported_version_rejected
    { authorizationEnabled := false, getRole := fun _ => .ok [] } [] { tools := [] }
    { headerProtocolVersion := "", username := "" }
    { jsonrpc := "2.0", id := .num 5, method := "initialize",
      params := [(ParamProtocolVersion, .str "1999-01-01")] } "t" "1999-01-01"
    rfl rfl (by decide) (by decide)).2.1

/-- C6: a tools/call with an absent, non-string or empty name parameter is
rejected with -32602; a non-empty unregistered name is rejected with
-32601 naming the tool; in both cases the identifier is echoed and no tool
executes. -/
theorem claim6_toolsCall_name_validation (env : AuthEnv) (cache : Cache)
    (catalog : ToolsCatalog) (http : HttpRequest) (req : McpRequest) (ts : String)
    (hm : req.method = "tools/call") :
    ((paramString req.params "name" = none ∨ paramString req.params "name" = some "") →
        (handleMcpRequest env cache catalog http (.ok req) ts).response =
            errorResponse req ErrorCodeInvalidParams "Tool name is required" none ∧
          (handleMcpRequest env cache catalog http (.ok req) ts).response.id = req.id ∧
          (handleMcpRequest env cache catalog http (.ok req) ts).executed = []) ∧
      (∀ name, paramString req.params "name" = some name → name ≠ "" →
        catalogGet catalog name = none →
        (handleMcpRequest env cache catalog http (.ok req) ts).response =
            errorResponse req ErrorCodeMethodNotFound ("Tool not found: " ++ name) none ∧
          (handleMcpRequest env cache catalog http (.ok req) ts).response.id = req.id ∧
          (handleMcpRequest env cache catalog http (.ok req) ts).executed = []) := by
  constructor
  · intro hname
    rcases hname with hno | hempty
    · simp [handleMcpRequest, hm, reduceIte, handleToolsCall, hno, errorResponse]
    · simp [handleMcpRequest, hm, reduceIte, handleToolsCall, hempty, errorResponse]
  · intro name hname hne hget
    simp [handleMcpRequest, hm, reduceIte, handleToolsCall, hname, hne, hget, errorResponse]

/-- C6 witness: the two rejection branches evaluated on concrete requests
(no name parameter; unknown tool "nope") against an empty catalog. -/
theorem claim6_witness :
    paramString ([] : List (String × JValue)) "name" = none ∧
      (handleMcpRequest { authorizationEnabled := false, getRole := fun _ => .ok [] } []
          { tools := [] } { headerProtocolVersion := "", username := "" }
          (.ok { jsonrpc := "2.0", id := .num 3, method := "tools/call", params := [] }) "t").executed = [] := by
  refine ⟨rfl, ?_⟩
  exact ((claim6_toolsCall_name_validation
    { authorizationEnabled := false, getRole := fun _ => .ok [] } [] { tools := [] }
    { headerProtocolVersion := "", username := "" }
    { jsonrpc := "2.0", id := .num 3, method := "tools/call", params := [] } "t" rfl).1
    (Or.inl rfl)).2.2

/-- C2: a tools/call naming a registered tool whose privilege check fails
returns a successful envelope (no error object, identifier echoed) whose
result is an error-flagged tool result whose text starts with
"Permission denied". -/
theorem claim2_permission_denied_result (env : AuthEnv) (cache : Cache)
    (catalog : ToolsCatalog) (http : HttpRequest) (req : McpRequest) (ts : String)
    (toolName : String) (tool : Tool) (msg : String)
    (hm : req.method = "tools/call")
    (hname : paramString req.params "name" = some toolName)
    (hne : toolName ≠ "")
    (htool : catalogGet catalog toolName = some tool)
    (hdeny : (checkToolPermission env cache (effectiveUser http) tool (toolArgsOf req)).1 = .error msg) :
    (handleMcpRequest env cache catalog http (.ok req) ts).response.error = none ∧
      (handleMcpRequest env cache catalog http (.ok req) ts).response.id = req.id ∧
      (handleMcpRequest env cache catalog http (.ok req) ts).response.result =
        some (.toolResult
          { content := [{ type := "text", text := "Permission denied: " ++ msg }],
            isError := true, structuredContent := none }) := by
  cases hcp : checkToolPermission env cache (effectiveUser http) tool (toolArgsOf req) with
  | mk res cache₂ =>
    have hres : res = .error msg := by
      rw [hcp] at hdeny
      exact hdeny
    subst hres
    simp [handleMcpRequest, hm, reduceIte, handleToolsCall, hname, hne, htool, hcp,
      successResponse]

/-- Concrete scenario shared by the C2 witness and the C4 counterexample:
authorization enabled, an empty privilege cache, a principal with no roles,
and a catalog holding one search tool that requires a Collection privilege. -/
def sampleDenyEnv : AuthEnv :=
  { authorizationEnabled := true, getRole := fun _ => .ok [] }

def sampleSearchTool : Tool :=
  { name := "data.search", title := "Vector Search",
    description := "Search for similar vectors in a collection",
    execute := fun _ => .ok { content := [], isError := false, structuredContent := none },
    inputSchema := none, outputSchema := none,
    requiredPrivileges :=
      [{ objectType := "Collection", objectPrivilege := "Search",
         objectNameField := ParamCollectionNameKey }] }

def sampleCatalog : ToolsCatalog := { tools := [("data.search", sampleSearchTool)] }

def sampleCallRequest : McpRequest :=
  { jsonrpc := "2.0", id := .num 7, method := "tools/call",
    params := [("name", .str "data.search")] }

def sampleHttp : HttpRequest := { headerProtocolVersion := "", username := "" }

/-- C2 witness: the denial envelope evaluated on the concrete scenario. -/
theorem claim2_witness :
    (checkToolPermission sampleDenyEnv [] (effectiveUser sampleHttp) sampleSearchTool
        (toolArgsOf sampleCallRequest)).1 =
      .error (permissionDeniedMsg "Search" "Collection" "*") ∧
      (handleMcpRequest sampleDenyEnv [] sampleCatalog sampleHttp
          (.ok sampleCallRequest) "t").response.error = none ∧
      (handleMcpRequest sampleDenyEnv [] sampleCatalog sampleHttp
          (.ok sampleCallRequest) "t").response.result =
        some (.toolResult
          { content :=
              [{ type := "text",
                 text := "Permission denied: " ++ permissionDeniedMsg "Search" "Collection" "*" }],
            isError := true, structuredContent := none }) := by
  have h := claim2_permission_denied_result sampleDenyEnv [] sampleCatalog sampleHttp
    sampleCallRequest "t" "data.search" sampleSearchTool
    (permissionDeniedMsg "Search" "Collection" "*")
    rfl rfl (by decide) rfl rfl
  exact ⟨rfl, h.1, h.2.2⟩

/-- C9: ping responses against the same catalog always report the same
status "healthy" and the same toolsCount, equal to the registry's size,
independently of the authorization environment, cache, and caller. -/
theorem claim9_ping_idempotent (env₁ env₂ : AuthEnv) (cache₁ cache₂ : Cache)
    (catalog : ToolsCatalog) (http₁ http₂ : HttpRequest) (req₁ req₂ : McpRequest)
    (ts₁ ts₂ : String)
    (h₁ : req₁.method = "ping") (h₂ : req₂.method = "ping") :
    ∃ v₁ v₂,
      (handleMcpRequest env₁ cache₁ catalog http₁ (.ok req₁) ts₁).response.result =
          some (.ping "healthy" ts₁ v₁ v₁ (catalogSize catalog)) ∧
        (handleMcpRequest env₂ cache₂ catalog http₂ (.ok req₂) ts₂).response.result =
          some (.ping "healthy" ts₂ v₂ v₂ (catalogSize catalog)) := by
  refine ⟨getProtocolVersion http₁ req₁, getProtocolVersion http₂ req₂, ?_, ?_⟩
  · simp [handleMcpRequest, h₁, reduceIte, plainOutput, handlePing, successResponse]
  · simp [handleMcpRequest, h₂, reduceIte, plainOutput, handlePing, successResponse]

/-- C9 witness: two pings with different callers and timestamps against the
one-tool catalog both report "healthy" and toolsCount 1. -/
theorem claim9_witness :
    ({ jsonrpc := "2.0", id := JValue.num 1, method := "ping", params := [] } : McpRequest).method = "ping" ∧
      ∃ v₁ v₂,
        (handleMcpRequest sampleDenyEnv [] sampleCatalog sampleHttp
            (.ok { jsonrpc := "2.0", id := .num 1, method := "ping", params := [] }) "t1").response.result =
            some (.ping "healthy" "t1" v₁ v₁ (catalogSize sampleCatalog)) ∧
          (handleMcpRequest { authorizationEnabled := false, getRole := fun _ => .ok [] } []
              sampleCatalog { headerProtocolVersion := "", username := "root" }
              (.ok { jsonrpc := "2.0", id := .num 2, method := "ping", params := [] }) "t2").response.result =
            some (.ping "healthy" "t2" v₂ v₂ (catalogSize sampleCatalog)) := by
  refine ⟨rfl, ?_⟩
  exact claim9_ping_idempotent sampleDenyEnv
    { authorizationEnabled := false, getRole := fun _ => .ok [] } [] [] sampleCatalog
    sampleHttp { headerProtocolVersion := "", username := "root" }
    { jsonrpc := "2.0", id := .num 1, method := "ping", params := [] }
    { jsonrpc := "2.0", id := .num 2, method := "ping", params := [] }
    "t1" "t2" rfl rfl

/-- C4 counterexample: a tools/call denied by the privilege check yields a
successful envelope (error = none) whose payload is an error-flagged tool
result, yet no protocol-version header is written: the handler returns
before the header line. -/
theorem claim4_counterexample :
    (handleMcpRequest sampleDenyEnv [] sampleCatalog sampleHttp
        (.ok sampleCallRequest) "t").response.error = none ∧
      (∃ r, (handleMcpRequest sampleDenyEnv [] sampleCatalog sampleHttp
          (.ok sampleCallRequest) "t").response.result = some (.toolResult r) ∧
        r.isError = true) ∧
      (handleMcpRequest sampleDenyEnv [] sampleCatalog sampleHttp
        (.ok sampleCallRequest) "t").header = none := by
  exact ⟨rfl, ⟨_, rfl, rfl⟩, rfl⟩

/-- C4 (amended): every successful response whose payload is not an
error-flagged tool result carries the negotiated protocol version in the
response header; the tools/call permission-denied and execution-failure
responses are successful envelopes but set no protocol-version header. -/
theorem claim4_header_on_success (env : AuthEnv) (cache : Cache) (catalog : ToolsCatalog)
    (http : HttpRequest) (req : McpRequest) (ts : String)
    (hsucc : (handleMcpRequest env cache catalog http (.ok req) ts).response.error = none)
    (hflag : ∀ r, (handleMcpRequest env cache catalog http (.ok req) ts).response.result =
        some (.toolResult r) → r.isError = false) :
    (handleMcpRequest env cache catalog http (.ok req) ts).header =
      some (getProtocolVersion http req) := by
  simp only [handleMcpRequest] at hsucc hflag ⊢
  by_cases h1 : req.method = "initialize"
  · rw [if_pos h1] at hsucc ⊢
    simp only [plainOutput, handleInitialize] at hsucc ⊢
    cases hp : paramString req.params ParamProtocolVersion with
    | some v =>
      simp only [hp] at hsucc ⊢
      by_cases hv : v ≠ "2025-03-26" ∧ v ≠ "2025-06-18"
      · rw [if_pos hv] at hsucc
        simp [errorResponse] at hsucc
      · rw [if_neg hv]
    | none =>
      simp only [hp]
  · rw [if_neg h1] at hsucc hflag ⊢
    by_cases h2 : req.method = "tools/list"
    · rw [if_pos h2]
      rfl
    · rw [if_neg h2] at hsucc hflag ⊢
      by_cases h3 : req.method = "tools/call"
      · rw [if_pos h3] at hsucc hflag ⊢
        simp only [handleToolsCall] at hsucc hflag ⊢
        cases hn : paramString req.params "name" with
        | none =>
          simp only [hn] at hsucc
          simp [errorResponse] at hsucc
        | some toolName =>
          simp only [hn] at hsucc hflag ⊢
          by_cases hne : toolName = ""
          · rw [if_pos hne] at hsucc
            simp [errorResponse] at hsucc
          · rw [if_neg hne] at hsucc hflag ⊢
            cases hg : catalogGet catalog toolName with
            | none =>
              simp only [hg] at hsucc
              simp [errorResponse] at hsucc
            | some tool =>
              simp only [hg] at hsucc hflag ⊢
              cases hcp : checkToolPermission env cache (effectiveUser http) tool (toolArgsOf req) with
              | mk res cache₂ =>
                simp only [hcp] at hflag ⊢
                cases res with
                | error e =>
                  have hbad := hflag _ rfl
                  simp [successResponse] at hbad
                | ok u =>
                  cases hex : tool.execute (toolArgsOf req) with
                  | error e =>
                    simp only [hex] at hflag ⊢
                    have hbad := hflag _ rfl
                    simp [successResponse] at hbad
                  | ok result =>
                    simp only [hex]
      · rw [if_neg h3] at hsucc ⊢
        by_cases h4 : req.method = "prompts/list"
        · rw [if_pos h4]; rfl
        · rw [if_neg h4] at hsucc ⊢
          by_cases h5 : req.method = "resources/list"
          · rw [if_pos h5]; rfl
          · rw [if_neg h5] at hsucc ⊢
            by_cases h6 : req.method = "resources/templates/list"
            · rw [if_pos h6]; rfl
            · rw [if_neg h6] at hsucc ⊢
              by_cases h7 : req.method = "ping"
              · rw [if_pos h7]; rfl
              · rw [if_neg h7] at hsucc ⊢
                by_cases h8 : req.method = "notifications/initialized"
                · rw [if_pos h8]; rfl
                · rw [if_neg h8] at hsucc
                  simp [errorResponse] at hsucc

/-- C4 witness: the amended property evaluated on a concrete ping request,
whose response is successful, not a tool result, and carries the header. -/
theorem claim4_witness :
    (handleMcpRequest sampleDenyEnv [] sampleCatalog sampleHttp
        (.ok { jsonrpc := "2.0", id := .num 9, method := "ping", params := [] }) "t").response.error = none ∧
      (handleMcpRequest sampleDenyEnv [] sampleCatalog sampleHttp
          (.ok { jsonrpc := "2.0", id := .num 9, method := "ping", params := [] }) "t").header =
        some (getProtocolVersion sampleHttp
          { jsonrpc := "2.0", id := .num 9, method := "ping", params := [] }) := by
  refine ⟨rfl, ?_⟩
  exact claim4_header_on_success sampleDenyEnv [] sampleCatalog sampleHttp
    { jsonrpc := "2.0", id := .num 9, method := "ping", params := [] } "t" rfl
    (fun r hr => by
      have : (RpcResult.ping "healthy" "t" McpProtocolVersion McpProtocolVersion 1) = .toolResult r :=
        Option.some.inj hr
      exact RpcResult.noConfusion this)

/-- C1: assuming the role lookup succeeds, the authorization check
succeeds iff authorization is globally disabled, or the tool declares no
requirements, or every declared requirement has an affirmative cached
entry for some role of the principal's role set with the public role
appended; cache updates never add an affirmative entry (misses only gain a
negative placeholder); and a failure is the message of the first
unsatisfied requirement, naming its privilege, object type and object
name, with the failing requirement's scan leaving a negative entry for
every role. -/
theorem claim1_checkToolPermission_correct (env : AuthEnv) (cache : Cache) (username : String)
    (tool : Tool) (args : ToolArgs) (rs : List String)
    (hrole : env.getRole username = .ok rs) :
    ((checkToolPermission env cache username tool args).1 = .ok () ↔
        (env.authorizationEnabled = false ∨ tool.requiredPrivileges = [] ∨
          ∀ p ∈ tool.requiredPrivileges,
            reqSatisfied cache args (dbNameOf args) (rs ++ [RolePublic]) p)) ∧
      (∀ key, lookupCache (checkToolPermission env cache username tool args).2 key = some true ↔
          lookupCache cache key = some true) ∧
      (∀ key, lookupCache (checkToolPermission env cache username tool args).2 key ≠
            lookupCache cache key →
          lookupCache cache key = none ∧
            lookupCache (checkToolPermission env cache username tool args).2 key = some false) ∧
      (∀ e, (checkToolPermission env cache username tool args).1 = .error e →
          ∃ p, firstUnsatisfied cache args (dbNameOf args) (rs ++ [RolePublic])
                tool.requiredPrivileges = some p ∧
            e = permissionDeniedMsg p.objectPrivilege p.objectType
                (objectNameFor args (dbNameOf args) p) ∧
            ∀ r ∈ rs ++ [RolePublic],
              lookupCache (checkToolPermission env cache username tool args).2
                (requirementKey args (dbNameOf args) p r) = some false) :=
  ⟨checkToolPermission_ok_iff env cache username tool args rs hrole,
    fun key => checkToolPermission_truth env cache username tool args key,
    fun key => checkToolPermission_delta env cache username tool args key,
    fun e herr => checkToolPermission_error_shape env cache username tool args rs e hrole herr⟩

/-- Concrete scenario for the C1 witness: a principal "alice" with role
"admin" whose cache holds exactly the affirmative entry the search tool's
requirement needs. -/
def c1Env : AuthEnv :=
  { authorizationEnabled := true,
    getRole := fun u => if u = "alice" then .ok ["admin"] else .ok [] }

def c1Args : ToolArgs := [(ParamCollectionNameKey, .str "docs")]

def c1Cache : Cache :=
  [(⟨"admin", PolicyForResource "default" "Collection" "docs", "Search"⟩, true)]

/-- C1 witness: with the affirmative entry cached for role "admin", the
check succeeds on the requirement-bearing search tool; removing every
cached entry makes it fail, by the same theorem's iff. -/
theorem claim1_witness :
    c1Env.getRole "alice" = .ok ["admin"] ∧
      (checkToolPermission c1Env c1Cache "alice" sampleSearchTool c1Args).1 = .ok () ∧
      (checkToolPermission c1Env [] "alice" sampleSearchTool c1Args).1 ≠ .ok () := by
  refine ⟨rfl, ?_, ?_⟩
  · exact (claim1_checkToolPermission_correct c1Env c1Cache "alice" sampleSearchTool c1Args
      ["admin"] rfl).1.mpr (Or.inr (Or.inr (by decide)))
  · intro hok
    have hall := (claim1_checkToolPermission_correct c1Env [] "alice" sampleSearchTool c1Args
      ["admin"] rfl).1.mp hok
    rcases hall with h | h | h
    · exact absurd h (by decide)
    · exact absurd h (by decide)
    · exact absurd h (by decide)

theorem filterToolsGo_sub (env : AuthEnv) (catalog : ToolsCatalog) (username : String) :
    ∀ (ds : List McpToolDescription) (c : Cache),
      ∀ d ∈ (filterToolsGo env catalog username ds c).1, d ∈ ds := by
  intro ds
  induction ds with
  | nil =>
    intro c d hd
    simp [filterToolsGo] at hd
  | cons a as ih =>
    intro c d hd
    cases hg : catalogGet catalog a.name with
    | none =>
      simp only [filterToolsGo, hg] at hd
      exact List.mem_cons_of_mem a (ih c d hd)
    | some tool =>
      cases hcp : checkToolPermission env c username tool [(ParamDatabaseKey, .str DefaultDBName)] with
      | mk res c₂ =>
        cases res with
        | error e =>
          simp only [filterToolsGo, hg, hcp] at hd
          exact List.mem_cons_of_mem a (ih c₂ d hd)
        | ok u =>
          simp only [filterToolsGo, hg, hcp] at hd
          rcases List.mem_cons.mp hd with he | hm
          · rw [he]; exact List.mem_cons_self a as
          · exact List.mem_cons_of_mem a (ih c₂ d hm)

theorem filterToolsGo_noPriv (env : AuthEnv) (catalog : ToolsCatalog) (username : String)
    (henabled : env.authorizationEnabled = true) :
    ∀ (ds : List McpToolDescription) (c : Cache),
      (∀ key, lookupCache c key ≠ some true) →
      ∀ d ∈ (filterToolsGo env catalog username ds c).1,
        ∀ t, catalogGet catalog d.name = some t → t.requiredPrivileges = [] := by
  intro ds
  induction ds with
  | nil =>
    intro c _ d hd
    simp [filterToolsGo] at hd
  | cons a as ih =>
    intro c hc d hd t ht
    cases hg : catalogGet catalog a.name with
    | none =>
      simp only [filterToolsGo, hg] at hd
      exact ih c hc d hd t ht
    | some tool =>
      cases hcp : checkToolPermission env c username tool [(ParamDatabaseKey, .str DefaultDBName)] with
      | mk res c₂ =>
        have hc₂ : ∀ key, lookupCache c₂ key ≠ some true := by
          intro key hkey
          have htr := checkToolPermission_truth env c username tool
            [(ParamDatabaseKey, .str DefaultDBName)] key
          rw [hcp] at htr
          exact hc key (htr.mp hkey)
        cases res with
        | error e =>
          simp only [filterToolsGo, hg, hcp] at hd
          exact ih c₂ hc₂ d hd t ht
        | ok u =>
          cases u
          simp only [filterToolsGo, hg, hcp] at hd
          rcases List.mem_cons.mp hd with he | hm
          · subst he
            rw [hg] at ht
            have htt := Option.some.inj ht
            subst htt
            by_cases hemp : tool.requiredPrivileges = []
            · exact hemp
            · cases hrole : env.getRole username with
              | error err =>
                have herr : (checkToolPermission env c username tool
                    [(ParamDatabaseKey, .str DefaultDBName)]).1 = .error err := by
                  unfold checkToolPermission
                  simp [henabled, hrole, List.isEmpty_iff, hemp]
                rw [hcp] at herr
                exact Except.noConfusion herr
              | ok rs =>
                have hok : (checkToolPermission env c username tool
                    [(ParamDatabaseKey, .str DefaultDBName)]).1 = .ok () := by
                  rw [hcp]
                have hiff := checkToolPermission_ok_iff env c username tool
                  [(ParamDatabaseKey, .str DefaultDBName)] rs hrole
                rcases hiff.mp hok with hfalse | hnil | hall
                · rw [henabled] at hfalse
                  exact absurd hfalse (by decide)
                · exact hnil
                · rcases List.exists_mem_of_ne_nil tool.requiredPrivileges hemp with ⟨p, hp⟩
                  rcases hall p hp with ⟨r, _, hl⟩
                  exact absurd hl (hc _)
          · exact ih c₂ hc₂ d hm t ht

/-- C5: the tools/list payload is a subset of the full registry's
descriptions; with authorization enabled and no affirmative cached
privilege, every listed tool declares no privilege requirement (so every
requirement-bearing tool is excluded); with authorization disabled the
full registry is returned. -/
theorem claim5_toolsList_filtering (env : AuthEnv) (cache : Cache) (catalog : ToolsCatalog)
    (http : HttpRequest) (req : McpRequest) (ts : String)
    (hm : req.method = "tools/list") :
    ∃ shown,
      (handleMcpRequest env cache catalog http (.ok req) ts).response.result =
          some (.toolsList { tools := shown }) ∧
        (∀ d ∈ shown, d ∈ catalogList catalog) ∧
        (env.authorizationEnabled = true → (∀ key, lookupCache cache key ≠ some true) →
          ∀ d ∈ shown, ∀ t, catalogGet catalog d.name = some t → t.requiredPrivileges = []) ∧
        (env.authorizationEnabled = false → shown = catalogList catalog) := by
  refine ⟨(filterToolsByPermission env catalog (effectiveUser http) (catalogList catalog) cache).1,
    ?_, ?_, ?_, ?_⟩
  · simp [handleMcpRequest, hm, reduceIte, handleToolsList, successResponse]
  · intro d hd
    by_cases ha : env.authorizationEnabled = true
    · simp [filterToolsByPermission, ha] at hd
      exact filterToolsGo_sub env catalog (effectiveUser http) (catalogList catalog) cache d hd
    · rw [Bool.not_eq_true] at ha
      simp [filterToolsByPermission, ha] at hd
      exact hd
  · intro ha hc d hd t ht
    simp [filterToolsByPermission, ha] at hd
    exact filterToolsGo_noPriv env catalog (effectiveUser http) ha
      (catalogList catalog) cache hc d hd t ht
  · intro ha
    simp [filterToolsByPermission, ha]

/-- C5 witness: against the one-tool catalog whose tool requires a
Collection privilege, with authorization enabled and an empty cache, the
filtering property holds at the concrete tools/list request (so the shown
list excludes that tool). -/
theorem claim5_witness :
    ({ jsonrpc := "2.0", id := JValue.num 4, method := "tools/list", params := [] } : McpRequest).method
        = "tools/list" ∧
      ∃ shown,
        (handleMcpRequest sampleDenyEnv [] sampleCatalog sampleHttp
            (.ok { jsonrpc := "2.0", id := .num 4, method := "tools/list", params := [] }) "t").response.result =
            some (.toolsList { tools := shown }) ∧
          (∀ d ∈ shown, d ∈ catalogList sampleCatalog) ∧
          (sampleDenyEnv.authorizationEnabled = true →
            (∀ key, lookupCache ([] : Cache) key ≠ some true) →
            ∀ d ∈ shown, ∀ t, catalogGet sampleCatalog d.name = some t → t.requiredPrivileges = []) ∧
          (sampleDenyEnv.authorizationEnabled = false → shown = catalogList sampleCatalog) :=
  ⟨rfl, claim5_toolsList_filtering sampleDenyEnv [] sampleCatalog sampleHttp
    { jsonrpc := "2.0", id := .num 4, method := "tools/list", params := [] } "t" rfl⟩

theorem ifEmptyString (s : String) : (if s = "" then "" else s) = s := by
  by_cases h : s = ""
  · rw [if_pos h, h]
  · rw [if_neg h]

theorem getStringArg_head (rest : ToolArgs) (key v d : String) :
    getStringArg ((key, .str v) :: rest) key d = if v = "" then d else v := by
  simp [getStringArg, lookupArg]

/-- C8: collection-create with dimension 128 and no metric type, when the
delegated create returns the OK status, produces a non-error result whose
structured payload maps dimension to 128, metric_type to "L2" and status
to "created"; with dimension 0 present it errors with "dimension must be
positive, got 0" and issues no delegated call. -/
theorem claim8_createCollection_example (px : ProxyModel) (name : String) (st : CommonStatus)
    (hok : px.createCollectionResp (createCollectionRequestFor DefaultDBName name 128) = .ok st)
    (hcode : st.code = 0) :
    (∃ tr kvs,
        (createCollection px [(ParamCollectionNameKey, .str name), (ParamDimensionKey, .num 128)]).1 =
            .ok tr ∧
          tr.isError = false ∧
          tr.structuredContent = some (.obj kvs) ∧
          lookupArg kvs ParamDimensionKey = some (.num 128) ∧
          lookupArg kvs ParamMetricTypeKey = some (.str "L2") ∧
          lookupArg kvs "status" = some (.str "created")) ∧
      ((createCollection px [(ParamCollectionNameKey, .str name), (ParamDimensionKey, .num 0)]).1 =
          .error "dimension must be positive, got 0" ∧
        (createCollection px [(ParamCollectionNameKey, .str name), (ParamDimensionKey, .num 0)]).2 = []) := by
  constructor
  · have hreq : requireArgs [(ParamCollectionNameKey, JValue.str name), (ParamDimensionKey, JValue.num 128)]
        [ParamCollectionNameKey, ParamDimensionKey] = .ok () := rfl
    have hcoll : getStringArg [(ParamCollectionNameKey, JValue.str name), (ParamDimensionKey, JValue.num 128)]
        ParamCollectionNameKey "" = name := by
      rw [getStringArg_head, ifEmptyString]
    have hdb : getStringArg [(ParamCollectionNameKey, JValue.str name), (ParamDimensionKey, JValue.num 128)]
        ParamDatabaseKey DefaultDBName = DefaultDBName := rfl
    have hdim : getIntArg [(ParamCollectionNameKey, JValue.str name), (ParamDimensionKey, JValue.num 128)]
        ParamDimensionKey 0 = 128 := rfl
    have hmt : getStringArg [(ParamCollectionNameKey, JValue.str name), (ParamDimensionKey, JValue.num 128)]
        ParamMetricTypeKey DefaultMetricType = DefaultMetricType := rfl
    simp only [createCollection, hreq, hcoll, hdb, hdim, hmt]
    rw [if_neg (by decide : ¬ ((128 : Int) ≤ 0))]
    simp only [hok]
    rw [if_neg (by simp [hcode])]
    exact ⟨_, _, rfl, rfl, rfl, rfl, rfl, rfl⟩
  · exact ⟨rfl, rfl⟩

/-- Delegated component whose create-collection succeeds (OK status) while
its index-creation RPC fails at transport level. -/
def c8Proxy : ProxyModel :=
  { createCollectionResp := fun _ => .ok { code := 0, reason := "" },
    createIndexResp := fun _ => .error "index rpc down" }

/-- C8 witness: the dimension-0 rejection evaluated at a concrete call. -/
theorem claim8_witness :
    c8Proxy.createCollectionResp (createCollectionRequestFor DefaultDBName "test" 128) =
        .ok { code := 0, reason := "" } ∧
      (createCollection c8Proxy [(ParamCollectionNameKey, .str "test"), (ParamDimensionKey, .num 0)]).1 =
        .error "dimension must be positive, got 0" := by
  refine ⟨rfl, ?_⟩
  exact (claim8_createCollection_example c8Proxy "test" { code := 0, reason := "" } rfl rfl).2.1

/-- C10: the outcome of the trailing index-creation call is entirely
discarded: two delegated components agreeing on create-collection yield
identical tool results and identical issued-call traces whatever their
index-creation behavior; and every successful outcome still reports
status "created" and has issued an index-creation call. -/
theorem claim10_createIndex_discarded (px₁ px₂ : ProxyModel) (args : ToolArgs)
    (hsame : px₁.createCollectionResp = px₂.createCollectionResp) :
    (createCollection px₁ args).1 = (createCollection px₂ args).1 ∧
      (createCollection px₁ args).2 = (createCollection px₂ args).2 ∧
      (∀ tr, (createCollection px₁ args).1 = .ok tr →
        tr.isError = false ∧
          (∃ kvs, tr.structuredContent = some (.obj kvs) ∧
            lookupArg kvs "status" = some (.str "created")) ∧
          ∃ r, ProxyCall.createIndex r ∈ (createCollection px₁ args).2) := by
  have hfun : createCollection px₁ args = createCollection px₂ args := by
    unfold createCollection
    rw [hsame]
  refine ⟨by rw [hfun], by rw [hfun], ?_⟩
  intro tr htr
  unfold createCollection at htr ⊢
  cases hra : requireArgs args [ParamCollectionNameKey, ParamDimensionKey] with
  | error e =>
    rw [hra] at htr
    exact Except.noConfusion htr
  | ok u =>
    cases u
    simp only [hra] at htr ⊢
    by_cases hd : getIntArg args ParamDimensionKey 0 ≤ 0
    · rw [if_pos hd] at htr
      exact Except.noConfusion htr
    · rw [if_neg hd] at htr
      rw [if_neg hd]
      cases hcr : px₁.createCollectionResp
          (createCollectionRequestFor (getStringArg args ParamDatabaseKey DefaultDBName)
            (getStringArg args ParamCollectionNameKey "") (getIntArg args ParamDimensionKey 0)) with
      | error e =>
        simp only [hcr] at htr
        exact Except.noConfusion htr
      | ok resp =>
        simp only [hcr] at htr ⊢
        by_cases hc0 : resp.code ≠ 0
        · rw [if_pos hc0] at htr
          exact Except.noConfusion htr
        · rw [if_neg hc0] at htr
          rw [if_neg hc0]
          have htr' := (Except.ok.inj htr).symm
          subst htr'
          refine ⟨rfl, ⟨_, rfl, rfl⟩, ?_⟩
          exact ⟨_, List.mem_cons_of_mem _ (List.mem_cons_self _ _)⟩

/-- Delegated component agreeing with c8Proxy on create-collection but
whose index-creation succeeds. -/
def c10ProxyIndexOk : ProxyModel :=
  { createCollectionResp := fun _ => .ok { code := 0, reason := "" },
    createIndexResp := fun _ => .ok { code := 0, reason := "" } }

/-- C10 witness: a failing and a succeeding index RPC produce the same
tool result at a concrete create call. -/
theorem claim10_witness :
    c8Proxy.createCollectionResp = c10ProxyIndexOk.createCollectionResp ∧
      (createCollection c8Proxy [(ParamCollectionNameKey, .str "test"), (ParamDimensionKey, .num 128)]).1 =
        (createCollection c10ProxyIndexOk [(ParamCollectionNameKey, .str "test"), (ParamDimensionKey, .num 128)]).1 := by
  refine ⟨rfl, ?_⟩
  exact (claim10_createIndex_discarded c8Proxy c10ProxyIndexOk
    [(ParamCollectionNameKey, .str "test"), (ParamDimensionKey, .num 128)] rfl).1

end Mcp
